import Mathlib

/-!
Verification of the two automation scripts of this repository against their
specification.

The repository consists of
  - `download-fontmake-pyz-from-gh.py`: resolves the latest fontmake release
    tag via the GitHub API (`get_latest_release_tag`), locates the
    platform-specific zip asset for a tag, follows HTTP redirects
    (`get_redirected_url`), downloads and extracts the archive and renames the
    inner `fontmake` zip-app to `fontmake-{version}.pyz`
    (`download_and_extract_zip`);
  - `export-font-with-fontmake.py`: runs fontmake as a subprocess with merged
    stdout/stderr, live-forwarding and optionally capturing its output
    (`run_subprocess_in_macro_window`, modelled here as
    `run_subprocess_model`), then extracts the reported
    `INFO:fontmake.font_project:Saving <path>` lines from the captured text
    and reveals the last one.

The Python functions are shallowly embedded below.  Network responses, the
child process's behaviour and the contents of the downloaded archive are
inputs to the embedded functions; the filesystem is modelled as the list of
full paths of the files that exist.  Each embedded definition carries a
comment pointing at the source lines it mirrors.
-/

/-! ## Generic list and string helpers -/

/-- Python's `s.startswith(p)`, written over the character lists of the two
strings so that it is easy to reason about. -/
def strStartsWith (p s : String) : Bool :=
  p.data.isPrefixOf s.data

/-! ## RedirectFollower: `get_redirected_url`
(`download-fontmake-pyz-from-gh.py`, lines 43-55) -/

/-- Split a character list at the first occurrence of `sep`.  Returns the
part before the separator and, when the separator occurs, the part after it. -/
def breakAtFirst (sep : Char) : List Char → List Char × Option (List Char)
  | [] => ([], none)
  | c :: cs =>
    if c = sep then ([], some cs)
    else
      let p := breakAtFirst sep cs
      (c :: p.1, p.2)

/-- Take characters until one of `seps` is hit; returns the taken part and
the remainder (which, when nonempty, starts with a separator). -/
def takeUntilAny (seps : List Char) : List Char → List Char × List Char
  | [] => ([], [])
  | c :: cs =>
    if c ∈ seps then ([], c :: cs)
    else
      let p := takeUntilAny seps cs
      (c :: p.1, p.2)

/-- Result of `urllib.parse.urlsplit`. -/
structure SplitResult where
  scheme : String
  netloc : String
  path : String
  query : String
  fragment : String
deriving DecidableEq

/-- Model of `urllib.parse.urlsplit` for absolute URLs of the usual
`scheme://netloc/path?query#fragment` shape: the fragment is everything after
the first `#`; the scheme is what stands before the first `:` when the rest
begins with `//`; the netloc then runs until the first `/` or `?`; the path
runs until the first `?`; the query is the rest.  (Python additionally
validates and lowercases the scheme and accepts scheme-less URLs; those cases
are irrelevant to the URLs this program handles.) -/
def urlsplitModel (url : String) : SplitResult :=
  let f := breakAtFirst '#' url.data
  let fragment := (f.2.getD []).asString
  match breakAtFirst ':' f.1 with
  | (scheme, some r1) =>
    match r1 with
    | '/' :: '/' :: r2 =>
      let np := takeUntilAny ['/', '?'] r2
      let pq := breakAtFirst '?' np.2
      ⟨scheme.asString, np.1.asString, pq.1.asString, (pq.2.getD []).asString, fragment⟩
    | _ =>
      let pq := breakAtFirst '?' r1
      ⟨scheme.asString, "", pq.1.asString, (pq.2.getD []).asString, fragment⟩
  | (_, none) =>
    let pq := breakAtFirst '?' f.1
    ⟨"", "", pq.1.asString, (pq.2.getD []).asString, fragment⟩

/-- Response to a `HEAD` request: the status code and the value of the
`Location` header.  In the script the header is read with
`response.getheader("Location")`; redirect responses carry it. -/
structure HeadResponse where
  status : Nat
  location : String

/-- A server: maps the two components actually sent in the probe —
`conn = HTTPSConnection(url_parts.netloc)` and
`conn.request("HEAD", url_parts.path, ...)` — to the response.  The query
string of the URL is not part of the request. -/
def Server : Type := String → String → HeadResponse

/-- The request issued by `get_redirected_url` for a URL: host (netloc) and
path only, mirroring lines 44-46 of the script. -/
def requestOf (url : String) : String × String :=
  ((urlsplitModel url).netloc, (urlsplitModel url).path)

/-- The response the server gives to the probe for `url`. -/
def respOf (srv : Server) (url : String) : HeadResponse :=
  srv (requestOf url).1 (requestOf url).2

/-- The redirect statuses followed at line 50: `(301, 302, 303, 307)`. -/
def isRedirectStatus (s : Nat) : Bool :=
  s == 301 || s == 302 || s == 303 || s == 307

/-- Model of `get_redirected_url` (lines 43-55).  The Python function
recurses without any depth bound; `fuel` counts the recursion depth explored,
and a result of `none` means the function has not returned within `fuel`
calls.  The function actually returns `r` exactly when some finite fuel
suffices (see `Resolves`). -/
def get_redirected_url (srv : Server) : Nat → String → Option String
  | 0, _ => none
  | fuel + 1, url =>
    let response := respOf srv url
    if isRedirectStatus response.status then
      get_redirected_url srv fuel response.location
    else
      some url

/-- `get_redirected_url` terminates on `u` with result `r`: some recursion
depth suffices. -/
def Resolves (srv : Server) (u r : String) : Prop :=
  ∃ n, get_redirected_url srv n u = some r

/-- A finite redirect chain from `u` to `r`: zero or more redirect responses
whose `Location` values link `u` to `r`, with `r` answering a non-redirect
status. -/
inductive ResolvesTo (srv : Server) : String → String → Prop
  | terminal (u : String)
      (h : isRedirectStatus (respOf srv u).status = false) :
      ResolvesTo srv u u
  | step (u r : String)
      (h : isRedirectStatus (respOf srv u).status = true)
      (ht : ResolvesTo srv (respOf srv u).location r) :
      ResolvesTo srv u r

/-! ## ReleaseFetcher: `get_latest_release_tag`
(`download-fontmake-pyz-from-gh.py`, lines 58-71) -/

/-- The response to the `GET .../releases/latest` request.  `body` is the
parse of the response body: `none` when the body is not valid JSON (so that
`json.loads` raises), `some fields` when it is a JSON object with the given
string-valued fields. -/
structure ApiResponse where
  status : Nat
  body : Option (List (String × String))

/-- Dictionary lookup, modelling `data["tag_name"]`: `none` means the key is
absent (so the subscript raises `KeyError`). -/
def lookup_field : List (String × String) → String → Option String
  | [], _ => none
  | (k, v) :: rest, key => if k = key then some v else lookup_field rest key

/-- Observable outcome of `get_latest_release_tag`. -/
inductive FetchResult where
  /-- The function returned the `tag_name` value. -/
  | ok (tag : String)
  /-- The function printed a failure message and returned `None`
  (line 63-65: `if response.status != 200`). -/
  | returnedNone
  /-- An exception escaped the function uncaught (`json.loads` on a
  non-JSON body raises `JSONDecodeError`; `data["tag_name"]` on an object
  without the key raises `KeyError`; neither is caught anywhere). -/
  | raised
deriving DecidableEq

/-- Model of `get_latest_release_tag` (lines 58-71). -/
def get_latest_release_tag (resp : ApiResponse) : FetchResult :=
  if resp.status ≠ 200 then .returnedNone
  else
    match resp.body with
    | none => .raised
    | some fields =>
      match lookup_field fields "tag_name" with
      | none => .raised
      | some version => .ok version

/-- What `main` (lines 135-141) does with the fetch stage's outcome. -/
inductive MainOutcome where
  /-- `main` went on to call `download_and_extract_zip` with this tag. -/
  | proceeded (tag : String)
  /-- `main` printed "Failed to retrieve the latest release version." and
  returned 1 (the `if latest_tag is None` branch). -/
  | exitedWithError
  /-- The exception raised inside `get_latest_release_tag` propagated out of
  `main` before the `None` check was reached. -/
  | uncaughtException
deriving DecidableEq

/-- Model of the fetch stage of `main` (lines 135-141). -/
def main_fetch_stage (resp : ApiResponse) : MainOutcome :=
  match get_latest_release_tag resp with
  | .raised => .uncaughtException
  | .returnedNone => .exitedWithError
  | .ok tag => .proceeded tag

/-! ## ArtifactInstaller: `download_and_extract_zip`
(`download-fontmake-pyz-from-gh.py`, lines 74-132) -/

/-- Lines 75-77: `version = tag_name; if version.startswith("v"):
version = version[1:]` — strip exactly one leading `v`. -/
def normalizeVersion (tag : String) : String :=
  match tag.data with
  | 'v' :: rest => rest.asString
  | _ => tag

/-- Line 35/79: `FONTMAKE_ZIP.format(version=version)` with
`FONTMAKE_ZIP = "fontmake-{version}-cp311-cp311-macosx_11_0_universal2.zip"`. -/
def fontmakeZipName (version : String) : String :=
  "fontmake-" ++ version ++ "-cp311-cp311-macosx_11_0_universal2.zip"

/-- Line 127: the final artifact name `f"fontmake-{version}.pyz"`. -/
def pyzName (version : String) : String :=
  "fontmake-" ++ version ++ ".pyz"

/-- Drop characters up to and including the first `'.'`; `none` when there is
no dot. -/
def dropThroughDot : List Char → Option (List Char)
  | [] => none
  | c :: cs => if c = '.' then some cs else dropThroughDot cs

/-- `pathlib.Path(...).stem` of a file name: the name with the last
dot-suffix removed ("a.b.zip" becomes "a.b", "name" stays "name").  (Python
treats a name whose only dot is the leading one, like ".bashrc", as having no
suffix; such names do not arise here.) -/
def stemOf (s : String) : String :=
  match dropThroughDot s.data.reverse with
  | none => s
  | some r => r.reverse.asString

/-- One element of the release's `assets` array (line 91-95): its `name` and
its `browser_download_url`. -/
structure Asset where
  name : String
  browser_download_url : String
deriving DecidableEq

/-- Lines 92-96: the linear scan `for asset in assets: if asset["name"] ==
zip_filename: zip_url = asset["browser_download_url"]; break`. -/
def findAssetUrl : List Asset → String → Option String
  | [], _ => none
  | a :: rest, zip_filename =>
    if a.name == zip_filename then some a.browser_download_url
    else findAssetUrl rest zip_filename

/-- Outcome of `urllib.request.urlretrieve(zip_url, zip_path)` (line 108).
`wrotePartFile` records whether a partial file was left at `zip_path` by the
failed transfer. -/
inductive DownloadOutcome where
  /-- The transfer completed; the archive now sits at `zip_path`. -/
  | ok
  /-- The server answered with an HTTP error status: `urlretrieve` raises
  `urllib.error.HTTPError`, which line 109 catches. -/
  | httpError (wrotePartFile : Bool)
  /-- Any other transport failure (DNS, refused connection, ...):
  `urlretrieve` raises `urllib.error.URLError` or an `OSError`, which the
  `except urllib.error.HTTPError` clause does not catch. -/
  | transportError (wrotePartFile : Bool)

/-- Everything external that one run of `download_and_extract_zip` consumes:
the status of the `GET .../releases/tags/{tag}` response and its parsed
`assets` array, the redirect resolution of the chosen asset URL (the
behaviour of `get_redirected_url` over the network, specified separately
above), the outcome of the byte transfer, and the list of file paths
(relative to the extraction root) that extracting the downloaded archive
produces. -/
structure InstallEnv where
  releaseStatus : Nat
  assets : List Asset
  redirect : String → String
  download : String → DownloadOutcome
  archive : List String

/-- Observable outcome of `download_and_extract_zip`. -/
inductive InstallResult where
  /-- Reached line 129-132: printed "Extracted to ...", removed the
  extracted directory and the archive. -/
  | ok
  /-- Line 86-88: the release-by-tag request did not return 200. -/
  | fetchFailed
  /-- Line 100-102: `if not zip_url` — no asset matched, or the matched
  asset's URL was the empty (falsy) string. -/
  | assetNotFound
  /-- Line 109-111: `urlretrieve` raised `HTTPError`. -/
  | downloadError
  /-- Line 117-119: the expected extracted directory does not exist. -/
  | extractError
  /-- Line 122-124: the extracted directory has no `fontmake` file. -/
  | validationError
  /-- An exception escaped the function uncaught (a transport error other
  than `HTTPError` during the download). -/
  | uncaught
deriving DecidableEq

/-- The filesystem is the list of full paths of the files that exist.  A
path is a directory when some file lives strictly below it
(`Path.is_dir`, line 117). -/
def is_dir (fs : List String) (d : String) : Bool :=
  fs.any (fun p => strStartsWith (d ++ "/") p)

/-- `Path.is_file` (line 122). -/
def is_file (fs : List String) (p : String) : Bool :=
  fs.contains p

/-- Lines 113-132 of `download_and_extract_zip`, from the point where the
archive has been written to `zip_path` (`fs1` is the filesystem at that
point): extract the archive into `output_dir`, require the extracted
top-level directory (line 116-119) and the inner `fontmake` file
(line 121-124), rename it to `fontmake-{version}.pyz` (line 127), then
remove the extracted directory tree (`shutil.rmtree`, line 131) and the
archive (`zip_path.unlink()`, line 132). -/
def extract_stage (env : InstallEnv) (version output_dir : String)
    (fs1 : List String) : InstallResult × List String :=
  let zip_filename := fontmakeZipName version
  let zip_path := output_dir ++ "/" ++ zip_filename
  let fs2 := env.archive.map (fun e => output_dir ++ "/" ++ e) ++ fs1
  let extracted_dir := output_dir ++ "/" ++ stemOf zip_filename
  if is_dir fs2 extracted_dir then
    let fontmake_exe := extracted_dir ++ "/" ++ "fontmake"
    if is_file fs2 fontmake_exe then
      let fs3 := (output_dir ++ "/" ++ pyzName version)
        :: fs2.filter (fun p => p != fontmake_exe)
      let fs4 := fs3.filter (fun p => !(strStartsWith (extracted_dir ++ "/") p))
      let fs5 := fs4.filter (fun p => p != zip_path)
      (.ok, fs5)
    else (.validationError, fs2)
  else (.extractError, fs2)

/-- Model of `download_and_extract_zip` (lines 74-132) as a function from the
external environment, the tag, the output directory and the initial
filesystem to the observable outcome and the final filesystem. -/
def download_and_extract_zip (env : InstallEnv) (tag_name output_dir : String)
    (fs : List String) : InstallResult × List String :=
  let version := normalizeVersion tag_name
  let zip_filename := fontmakeZipName version
  let zip_path := output_dir ++ "/" ++ zip_filename
  if env.releaseStatus ≠ 200 then (.fetchFailed, fs)
  else
    match findAssetUrl env.assets zip_filename with
    | none => (.assetNotFound, fs)
    | some zip_url =>
      -- line 100: `if not zip_url` is also taken when the URL is the empty,
      -- falsy string, not only when no asset name matched
      if zip_url = "" then (.assetNotFound, fs)
      else
        match env.download (env.redirect zip_url) with
        | .httpError w => (.downloadError, if w then zip_path :: fs else fs)
        | .transportError w => (.uncaught, if w then zip_path :: fs else fs)
        | .ok => extract_stage env version output_dir (zip_path :: fs)

/-! ## ProcessSupervisor: `run_subprocess_in_macro_window`
(`export-font-with-fontmake.py`, lines 52-92) -/

/-- The child process, as the supervisor can observe it: the lines it writes
to its merged stdout/stderr stream, in emission order (each line includes its
trailing newline, as delivered by iterating `process.stdout`), and its exit
code. -/
structure ChildProcess where
  lines : List String
  exitCode : Int

/-- `subprocess.CompletedProcess` as returned at lines 87-92: the exit code
and the `stdout`/`stderr` fields (`none` models Python `None`). -/
structure CompletedProcess where
  returncode : Int
  stdout : Option String
  stderr : Option String
deriving DecidableEq

/-- Outcome of the supervisor: a returned `CompletedProcess`, or the
`subprocess.CalledProcessError` raised at lines 81-85 when `check` is set and
the child exited nonzero. -/
inductive RunResult where
  | ok (r : CompletedProcess)
  | calledProcessError (code : Int)
deriving DecidableEq

/-- Model of `run_subprocess_in_macro_window` (lines 52-92; the
`clear_log`/`show_window` UI calls have no observable effect here).

The read loop is

    while process.poll() is None:
        for line in process.stdout:
            ...

Once the inner `for` starts it iterates `process.stdout` to end-of-stream,
so it reads every line the child ever emits; afterwards `poll()` reports the
exit code and the `while` exits.  But the `while` condition is checked
first: when the child has already exited at the moment of the first `poll()`
call — `childExitedBeforeFirstPoll` records that race — the loop body never
runs and the lines sitting in the pipe buffer are never read at all.

When `capture_output` is true the same lines written to the console are
accumulated in the `io.StringIO` buffer, and the result carries
`output.getvalue()` and `""`; otherwise it carries `None, None`. -/
def run_subprocess_model (child : ChildProcess)
    (childExitedBeforeFirstPoll : Bool)
    (check capture_output : Bool) : RunResult :=
  let captured : String :=
    if childExitedBeforeFirstPoll then "" else String.join child.lines
  let returncode := child.exitCode
  if check && returncode != 0 then
    .calledProcessError returncode
  else if capture_output then
    .ok ⟨returncode, some captured, some ""⟩
  else
    .ok ⟨returncode, none, none⟩

/-! ## OutputLocator: the `re.findall` over the captured output
(`export-font-with-fontmake.py`, lines 159-164) -/

/-- The literal part of the pattern
`r"^INFO:fontmake.font_project:Saving (.*)$"` that precedes the capture
group.  (The unescaped `.` of `fontmake.font_project` is an any-character
metacharacter in the real regex; it is modelled as the literal dot, the only
character it matches in the log lines fontmake produces.) -/
def savingMarker : List Char :=
  "INFO:fontmake.font_project:Saving ".data

/-- Match one line of the output against the pattern: with `re.M`, `^`
anchors at the line start and `(.*)$` captures the rest of the line. -/
def matchSavingLine (line : List Char) : Option String :=
  if savingMarker.isPrefixOf line then
    some (line.drop savingMarker.length).asString
  else
    none

/-- Split a character list into its `'\n'`-separated lines (the line
structure `re.M` works with). -/
def splitLinesChars : List Char → List (List Char)
  | [] => [[]]
  | c :: cs =>
    match splitLinesChars cs, decide (c = '\n') with
    | r, true => [] :: r
    | [], false => [[c]]
    | l :: r, false => (c :: l) :: r

/-- Model of
`re.findall(r"^INFO:fontmake.font_project:Saving (.*)$", text, flags=re.M)`
(lines 159-161): the captured group of every matching line, in order of
appearance. -/
def extractReportedPaths (text : String) : List String :=
  (splitLinesChars text.data).filterMap matchSavingLine

/-- Lines 162-164: `if output_paths: reveal_file_in_finder(output_paths[-1])`
— the path handed to the reveal step, `none` when no line matched. -/
def reveal_target (text : String) : Option String :=
  (extractReportedPaths text).getLast?

/-- Join lines with `'\n'` separators: the text whose line structure is the
given list of lines. -/
def joinLines : List String → String
  | [] => ""
  | [l] => l
  | l :: ls => l ++ "\n" ++ joinLines ls

/-! ## Concrete servers, environments and inputs used in witnesses and
counterexamples -/

/-- A server holding one redirect: `dl.example` answers 302 towards
`https://cdn.example/b`; every other host answers 200. -/
def chainSrv : Server := fun netloc _ =>
  if netloc = "dl.example" then ⟨302, "https://cdn.example/b"⟩ else ⟨200, ""⟩

/-- A misbehaving server that answers every probe with a 301 back to the
same URL. -/
def loopSrv : Server := fun _ _ => ⟨301, "https://loop.example/x"⟩

/-- A server that never redirects. -/
def flatSrv : Server := fun _ _ => ⟨200, ""⟩

/-- A healthy environment: the release request succeeds, the expected asset
for version `1.0` is present, the download succeeds and the archive holds
exactly `{stem}/fontmake`. -/
def baseEnv : InstallEnv where
  releaseStatus := 200
  assets := [⟨fontmakeZipName "1.0", "https://dl.example/fm.zip"⟩]
  redirect := fun u => u
  download := fun _ => .ok
  archive := ["fontmake-1.0-cp311-cp311-macosx_11_0_universal2/fontmake"]

/-- Same, but the archive's directory has a `README` and no `fontmake`. -/
def noFontmakeEnv : InstallEnv :=
  { baseEnv with archive := ["fontmake-1.0-cp311-cp311-macosx_11_0_universal2/README"] }

/-- Same, but the byte transfer fails with an HTTP error after writing a
partial file. -/
def failingDownloadEnv : InstallEnv :=
  { baseEnv with download := fun _ => .httpError true }

/-- Same, but the byte transfer fails with a non-HTTP transport error. -/
def crashingDownloadEnv : InstallEnv :=
  { baseEnv with download := fun _ => .transportError false }

/-- Same, but the matching asset's download URL is the empty string. -/
def emptyUrlEnv : InstallEnv :=
  { baseEnv with assets := [⟨fontmakeZipName "1.0", ""⟩] }

/-- Same, but no asset name matches the expected filename. -/
def noMatchEnv : InstallEnv :=
  { baseEnv with assets := [⟨"fontmake-1.0.zip", "https://dl.example/other.zip"⟩] }

/-! # Theorems -/

/-! ## Generic helper lemmas -/

/-- A common leading run can be cancelled when testing a list prefix. -/
theorem isPrefixOf_append_cancel (p a b : List Char) :
    (p ++ a).isPrefixOf (p ++ b) = a.isPrefixOf b := by
  induction p with
  | nil => rfl
  | cons c cs ih => simp [List.isPrefixOf, ih]

/-- A list is a prefix of itself followed by anything. -/
theorem isPrefixOf_self_append (a b : List Char) :
    a.isPrefixOf (a ++ b) = true := by
  induction a with
  | nil => simp [List.isPrefixOf]
  | cons c cs ih => simp [List.isPrefixOf, ih]

/-- Cancellation of a common leading string under string append. -/
theorem str_append_cancel_left {a b c : String} (h : a ++ b = a ++ c) : b = c := by
  have hd : a.data ++ b.data = a.data ++ c.data := by
    simpa [String.data_append] using congrArg String.data h
  exact String.ext (List.append_cancel_left hd)

/-- Cancellation of a common leading string under `strStartsWith`. -/
theorem strStartsWith_append_cancel (p x y : String) :
    strStartsWith (p ++ x) (p ++ y) = strStartsWith x y := by
  simp only [strStartsWith, String.data_append]
  exact isPrefixOf_append_cancel p.data x.data y.data

/-- A string starts with itself followed by anything. -/
theorem strStartsWith_self_append (a b : String) :
    strStartsWith a (a ++ b) = true := by
  simp only [strStartsWith, String.data_append]
  exact isPrefixOf_self_append a.data b.data

/-! ## RedirectFollower lemmas -/

/-- A run of `get_redirected_url` that returns traces a finite redirect
chain. -/
theorem fuel_resolvesTo (srv : Server) :
    ∀ n u r, get_redirected_url srv n u = some r → ResolvesTo srv u r := by
  intro n
  induction n with
  | zero => intro u r h; simp [get_redirected_url] at h
  | succ n ih =>
    intro u r h
    simp only [get_redirected_url] at h
    by_cases hs : isRedirectStatus (respOf srv u).status = true
    · rw [if_pos hs] at h
      exact ResolvesTo.step u r hs (ih _ _ h)
    · rw [if_neg hs] at h
      cases h
      exact ResolvesTo.terminal u (Bool.not_eq_true _ ▸ hs)

/-- A finite redirect chain gives a successful run of `get_redirected_url`. -/
theorem resolvesTo_fuel (srv : Server) (u r : String)
    (h : ResolvesTo srv u r) : Resolves srv u r := by
  induction h with
  | terminal v hv => exact ⟨1, by simp [get_redirected_url, hv]⟩
  | step v rr hv ht ih =>
    obtain ⟨n, hn⟩ := ih
    exact ⟨n + 1, by simp [get_redirected_url, hv, hn]⟩

/-- The URL a redirect chain ends at answers a non-redirect status. -/
theorem resolvesTo_last_not_redirect (srv : Server) (u r : String)
    (h : ResolvesTo srv u r) :
    isRedirectStatus (respOf srv r).status = false := by
  induction h with
  | terminal v hv => exact hv
  | step v rr hv ht ih => exact ih

/-- Against a server that always redirects, `get_redirected_url` never
returns, whatever recursion depth is explored. -/
theorem alwaysRedirect_no_result (srv : Server)
    (hall : ∀ netloc pth, isRedirectStatus (srv netloc pth).status = true) :
    ∀ n u, get_redirected_url srv n u = none := by
  intro n
  induction n with
  | zero => intro u; rfl
  | succ n ih => intro u; simp [get_redirected_url, respOf, hall, ih]

/-! ## C4: redirect chains and idempotence -/

/-- C4: `get_redirected_url` issues a HEAD probe and recurses on the
`Location` value exactly for the statuses 301, 302, 303, 307, returning the
URL unchanged otherwise; hence it returns `r` from `u` precisely when a
finite chain of redirect responses links `u` to a terminally-answering `r`
(`ResolvesTo`), and resolution is idempotent once resolved: a resolved URL
resolves to itself. -/
theorem C4_redirect_chain (srv : Server) (u r : String) :
    (ResolvesTo srv u r ↔ Resolves srv u r) ∧
    (Resolves srv u r → Resolves srv r r) := by
  constructor
  · constructor
    · exact resolvesTo_fuel srv u r
    · rintro ⟨n, hn⟩
      exact fuel_resolvesTo srv n u r hn
  · rintro ⟨n, hn⟩
    have ht := resolvesTo_last_not_redirect srv u r (fuel_resolvesTo srv n u r hn)
    exact ⟨1, by simp [get_redirected_url, ht]⟩

/-- Witness for C4 at a concrete one-hop chain: `https://dl.example/a`
redirects (302) to `https://cdn.example/b`, which answers 200; resolution
returns the terminal URL and is idempotent there. -/
theorem C4_redirect_chain_witness :
    Resolves chainSrv "https://dl.example/a" "https://cdn.example/b" ∧
    Resolves chainSrv "https://cdn.example/b" "https://cdn.example/b" := by
  have h1 : ResolvesTo chainSrv "https://dl.example/a" "https://cdn.example/b" := by
    refine ResolvesTo.step _ _ (by decide) ?_
    have hloc : (respOf chainSrv "https://dl.example/a").location =
        "https://cdn.example/b" := by decide
    rw [hloc]
    exact ResolvesTo.terminal _ (by decide)
  have h2 := (C4_redirect_chain chainSrv "https://dl.example/a"
    "https://cdn.example/b").1.mp h1
  exact ⟨h2, (C4_redirect_chain chainSrv "https://dl.example/a"
    "https://cdn.example/b").2 h2⟩

/-! ## C5: the recursion is not depth-bounded -/

/-- C5 (counterexample): against `loopSrv`, which answers every probe with a
301 to the same URL, `get_redirected_url` never returns, at any recursion
depth — the claim that the recursion is bounded in depth and terminates on
every input, cyclic chains included, is false. -/
theorem C5_counterexample :
    ¬ ∃ r, Resolves loopSrv "https://loop.example/x" r := by
  rintro ⟨r, n, hn⟩
  rw [alwaysRedirect_no_result loopSrv (fun _ _ => rfl) n _] at hn
  cases hn

/-- C5 (amended): the recursion on `Location` headers is unbounded; the
function terminates exactly on inputs whose redirect chain reaches a
non-redirect response after finitely many hops, and against a server that
always answers with a redirect it never returns, whatever depth is
explored. -/
theorem C5_unbounded_recursion (srv : Server)
    (hall : ∀ netloc pth, isRedirectStatus (srv netloc pth).status = true) :
    (∀ n u, get_redirected_url srv n u = none) ∧
    (∀ u r, ¬ Resolves srv u r) := by
  refine ⟨alwaysRedirect_no_result srv hall, ?_⟩
  rintro u r ⟨n, hn⟩
  rw [alwaysRedirect_no_result srv hall n u] at hn
  cases hn

/-- Witness for C5 at the concrete cyclic server. -/
theorem C5_unbounded_recursion_witness :
    get_redirected_url loopSrv 10 "https://loop.example/x" = none ∧
    ¬ Resolves loopSrv "https://loop.example/x" "https://loop.example/x" :=
  ⟨(C5_unbounded_recursion loopSrv (fun _ _ => rfl)).1 10 _,
   (C5_unbounded_recursion loopSrv (fun _ _ => rfl)).2 _ _⟩

/-! ## C3: the latest-release fetch -/

/-- C3 (counterexample): an HTTP 200 response whose body is not JSON does
not produce the `None`/NotFoundError outcome the claim asserts — the
uncaught `json.loads` exception escapes instead. -/
theorem C3_counterexample :
    get_latest_release_tag ⟨200, none⟩ = .raised ∧
    FetchResult.raised ≠ FetchResult.returnedNone := by
  constructor
  · decide
  · decide

/-- C3 (amended): `get_latest_release_tag` returns the `tag_name` value
verbatim from an HTTP 200 JSON object containing the field; a non-200 status
yields the `None` return (the NotFoundError signal); a 200 with a non-JSON
body or with a JSON object lacking `tag_name` raises an uncaught exception
instead; in every non-success case `main` does not proceed to the download
stage. -/
theorem C3_fetch_behavior (resp : ApiResponse) :
    (resp.status ≠ 200 → get_latest_release_tag resp = .returnedNone) ∧
    (resp.status = 200 → resp.body = none → get_latest_release_tag resp = .raised) ∧
    (∀ fields, resp.status = 200 → resp.body = some fields →
      lookup_field fields "tag_name" = none →
      get_latest_release_tag resp = .raised) ∧
    (∀ fields tag, resp.status = 200 → resp.body = some fields →
      lookup_field fields "tag_name" = some tag →
      get_latest_release_tag resp = .ok tag) ∧
    (∀ tag, main_fetch_stage resp = .proceeded tag ↔
      get_latest_release_tag resp = .ok tag) := by
  refine ⟨?_, ?_, ?_, ?_, ?_⟩
  · intro h
    simp [get_latest_release_tag, h]
  · intro h hb
    simp [get_latest_release_tag, h, hb]
  · intro fields h hb hl
    simp [get_latest_release_tag, h, hb, hl]
  · intro fields tag h hb hl
    simp [get_latest_release_tag, h, hb, hl]
  · intro tag
    unfold main_fetch_stage
    cases hr : get_latest_release_tag resp <;> simp

/-! ## C10: the probe omits the query string -/

/-- `breakAtFirst` passes a list not containing the separator through
whole. -/
theorem breakAtFirst_not_mem (sep : Char) (l : List Char) (h : sep ∉ l) :
    breakAtFirst sep l = (l, none) := by
  induction l with
  | nil => rfl
  | cons c cs ih =>
    have hne : ¬ c = sep := fun hc => h (by simp [hc])
    simp [breakAtFirst, hne, ih (fun hm => h (by simp [hm]))]

/-- `breakAtFirst` splits at the first occurrence of the separator. -/
theorem breakAtFirst_append (sep : Char) (a b : List Char) (h : sep ∉ a) :
    breakAtFirst sep (a ++ sep :: b) = (a, some b) := by
  induction a with
  | nil => simp [breakAtFirst]
  | cons c cs ih =>
    have hne : ¬ c = sep := fun hc => h (by simp [hc])
    simp [breakAtFirst, hne, ih (fun hm => h (by simp [hm]))]

/-- `takeUntilAny` splits at the first separator character. -/
theorem takeUntilAny_append (seps : List Char) (a : List Char) (c : Char)
    (b : List Char) (ha : ∀ x ∈ a, x ∉ seps) (hc : c ∈ seps) :
    takeUntilAny seps (a ++ c :: b) = (a, c :: b) := by
  induction a with
  | nil => simp [takeUntilAny, hc]
  | cons d ds ih =>
    have hd : d ∉ seps := ha d (by simp)
    simp [takeUntilAny, hd, ih (fun x hx => ha x (by simp [hx]))]

/-- Computation of the urlsplit model on an https URL with host, path and
query components (no `#` anywhere, no `/`/`?` in the host, no `?` in the
path). -/
theorem urlsplit_https (host pth q : String)
    (hh : ∀ c ∈ host.data, c ≠ '/' ∧ c ≠ '?' ∧ c ≠ '#')
    (hp : ∀ c ∈ pth.data, c ≠ '?' ∧ c ≠ '#')
    (hq : ∀ c ∈ q.data, c ≠ '#') :
    urlsplitModel ("https://" ++ host ++ "/" ++ pth ++ "?" ++ q) =
      ⟨"https", host, "/" ++ pth, q, ""⟩ := by
  have hlit1 : ("https://" : String).data =
      'h' :: 't' :: 't' :: 'p' :: 's' :: ':' :: '/' :: '/' :: [] := rfl
  have hlit2 : ("https" : String).data = 'h' :: 't' :: 't' :: 'p' :: 's' :: [] := rfl
  have hdata : ("https://" ++ host ++ "/" ++ pth ++ "?" ++ q).data =
      "https".data ++ ':' :: '/' :: '/' ::
        (host.data ++ '/' :: (pth.data ++ '?' :: q.data)) := by
    simp [String.data_append, hlit1, hlit2]
  have hsharp : '#' ∉ "https".data ++ ':' :: '/' :: '/' ::
      (host.data ++ '/' :: (pth.data ++ '?' :: q.data)) := by
    intro hmem
    simp only [List.mem_append, List.mem_cons] at hmem
    rcases hmem with h | h | h | h | h | h | h | h | h <;>
      first
        | (revert h; decide)
        | exact (hh _ h).2.2 rfl
        | exact (hp _ h).2 rfl
        | exact hq _ h rfl
  have hcolon : (':' : Char) ∉ ("https" : String).data := by decide
  have hhost : ∀ x ∈ host.data, x ∉ (['/', '?'] : List Char) := by
    intro x hx hmem
    rcases List.mem_cons.mp hmem with h1 | h2
    · exact (hh x hx).1 h1
    · rcases List.mem_cons.mp h2 with h3 | h4
      · exact (hh x hx).2.1 h3
      · cases h4
  have hqm : ('?' : Char) ∉ '/' :: pth.data := by
    intro hmem
    rcases List.mem_cons.mp hmem with h1 | h2
    · cases h1
    · exact (hp _ h2).1 rfl
  simp only [urlsplitModel, hdata, breakAtFirst_not_mem '#' _ hsharp]
  simp only [breakAtFirst_append ':' _ _ hcolon]
  simp only [takeUntilAny_append ['/', '?'] host.data '/' _ hhost (by decide)]
  have hsplit : ('/' :: (pth.data ++ '?' :: q.data)) =
      ('/' :: pth.data) ++ '?' :: q.data := by simp
  simp only [hsplit, breakAtFirst_append '?' _ _ hqm]
  rfl

/-- Witness for C3 at concrete responses: a 404 yields the `None` return and
`main` does not proceed; a 200 JSON object with `tag_name` is returned
verbatim. -/
theorem C3_fetch_behavior_witness :
    get_latest_release_tag ⟨404, none⟩ = .returnedNone ∧
    get_latest_release_tag ⟨200, some [("tag_name", "v9.9")]⟩ = .ok "v9.9" ∧
    main_fetch_stage ⟨404, none⟩ ≠ .proceeded "v9.9" := by
  refine ⟨(C3_fetch_behavior ⟨404, none⟩).1 (by decide),
    (C3_fetch_behavior ⟨200, some [("tag_name", "v9.9")]⟩).2.2.2.1
      [("tag_name", "v9.9")] "v9.9" rfl rfl (by decide), fun h => ?_⟩
  have hok := ((C3_fetch_behavior ⟨404, none⟩).2.2.2.2 "v9.9").mp h
  exact absurd hok (by decide)

/-- C10: the HEAD probe `get_redirected_url` issues is built from the URL's
host and path only — two URLs differing only in their query string produce
the same probe, and the query never reaches the server — while the value
returned for a terminally-answering URL is the untruncated input, query
included. -/
theorem C10_query_dropped (srv : Server) (host pth q1 q2 : String)
    (hh : ∀ c ∈ host.data, c ≠ '/' ∧ c ≠ '?' ∧ c ≠ '#')
    (hp : ∀ c ∈ pth.data, c ≠ '?' ∧ c ≠ '#')
    (hq1 : ∀ c ∈ q1.data, c ≠ '#') (hq2 : ∀ c ∈ q2.data, c ≠ '#') :
    requestOf ("https://" ++ host ++ "/" ++ pth ++ "?" ++ q1) =
      (host, "/" ++ pth) ∧
    requestOf ("https://" ++ host ++ "/" ++ pth ++ "?" ++ q2) =
      requestOf ("https://" ++ host ++ "/" ++ pth ++ "?" ++ q1) ∧
    (isRedirectStatus (srv host ("/" ++ pth)).status = false →
      get_redirected_url srv 1 ("https://" ++ host ++ "/" ++ pth ++ "?" ++ q1) =
        some ("https://" ++ host ++ "/" ++ pth ++ "?" ++ q1)) := by
  have h1 : requestOf ("https://" ++ host ++ "/" ++ pth ++ "?" ++ q1) =
      (host, "/" ++ pth) := by
    simp [requestOf, urlsplit_https host pth q1 hh hp hq1]
  have h2 : requestOf ("https://" ++ host ++ "/" ++ pth ++ "?" ++ q2) =
      (host, "/" ++ pth) := by
    simp [requestOf, urlsplit_https host pth q2 hh hp hq2]
  refine ⟨h1, h2.trans h1.symm, fun hterm => ?_⟩
  have hresp : respOf srv ("https://" ++ host ++ "/" ++ pth ++ "?" ++ q1) =
      srv host ("/" ++ pth) := by
    rw [respOf, h1]
  simp [get_redirected_url, hresp, hterm]

/-- Witness for C10 at a concrete signed-download URL against a server that
does not redirect. -/
theorem C10_query_dropped_witness :
    requestOf "https://objects.example.com/fm.zip?token=abc" =
      ("objects.example.com", "/fm.zip") ∧
    requestOf "https://objects.example.com/fm.zip?sig=zzz" =
      requestOf "https://objects.example.com/fm.zip?token=abc" ∧
    get_redirected_url flatSrv 1 "https://objects.example.com/fm.zip?token=abc" =
      some "https://objects.example.com/fm.zip?token=abc" := by
  have h := C10_query_dropped flatSrv "objects.example.com" "fm.zip"
    "token=abc" "sig=zzz" (by decide) (by decide) (by decide) (by decide)
  exact ⟨h.1, h.2.1, h.2.2 (by decide)⟩

/-! ## ArtifactInstaller path lemmas -/

/-- `stemOf` strips a final `".zip"` whatever stands before it. -/
theorem stemOf_append_zip (s : String) : stemOf (s ++ ".zip") = s := by
  have hrev : (s ++ ".zip").data.reverse =
      'p' :: 'i' :: 'z' :: '.' :: s.data.reverse := by
    have hlit : (".zip" : String).data = ['.', 'z', 'i', 'p'] := rfl
    simp [String.data_append, hlit]
  have hd : dropThroughDot ('p' :: 'i' :: 'z' :: '.' :: s.data.reverse) =
      some s.data.reverse := by
    simp [dropThroughDot]
  simp only [stemOf, hrev, hd, List.reverse_reverse]
  rfl

/-- The archive filename splits as its stem followed by `".zip"`. -/
theorem fontmakeZipName_eq (v : String) :
    fontmakeZipName v =
      "fontmake-" ++ v ++ "-cp311-cp311-macosx_11_0_universal2" ++ ".zip" := by
  unfold fontmakeZipName
  rw [String.append_assoc ("fontmake-" ++ v) "-cp311-cp311-macosx_11_0_universal2" ".zip"]
  congr 1

/-- The stem of the archive filename. -/
theorem stem_fontmakeZipName (v : String) :
    stemOf (fontmakeZipName v) =
      "fontmake-" ++ v ++ "-cp311-cp311-macosx_11_0_universal2" := by
  rw [fontmakeZipName_eq, stemOf_append_zip]

/-- The final `.pyz` artifact path differs from the archive path. -/
theorem pyz_ne_zip (d v : String) :
    d ++ "/" ++ pyzName v ≠ d ++ "/" ++ fontmakeZipName v := by
  intro h
  have h1 : pyzName v = fontmakeZipName v := str_append_cancel_left h
  unfold pyzName fontmakeZipName at h1
  have h2 : (".pyz" : String) = "-cp311-cp311-macosx_11_0_universal2.zip" :=
    str_append_cancel_left h1
  exact absurd h2 (by decide)

/-- The final `.pyz` artifact path does not lie under the extracted
directory. -/
theorem pyz_not_under_extracted (d v : String) :
    strStartsWith (d ++ "/" ++ stemOf (fontmakeZipName v) ++ "/")
      (d ++ "/" ++ pyzName v) = false := by
  rw [stem_fontmakeZipName]
  unfold pyzName
  simp only [strStartsWith, String.data_append, List.append_assoc]
  rw [isPrefixOf_append_cancel, isPrefixOf_append_cancel,
    isPrefixOf_append_cancel, isPrefixOf_append_cancel]
  decide

/-- A path of the form `d ++ "/" ++ e` with `e` under `stem/` lies under the
extracted directory `d ++ "/" ++ stem`. -/
theorem entry_under_extracted (d stem e : String)
    (he : strStartsWith (stem ++ "/") e = true) :
    strStartsWith (d ++ "/" ++ stem ++ "/") (d ++ "/" ++ e) = true := by
  simp only [strStartsWith, String.data_append, List.append_assoc] at he ⊢
  rw [isPrefixOf_append_cancel, isPrefixOf_append_cancel]
  exact he

/-- Regrouping of the inner `fontmake` path. -/
theorem exe_path_assoc (d stem : String) :
    d ++ "/" ++ stem ++ "/" ++ "fontmake" = d ++ "/" ++ (stem ++ "/" ++ "fontmake") :=
  String.ext (by simp [String.data_append, List.append_assoc])

/-- The inner `fontmake` path differs from the archive path. -/
theorem exe_ne_zip (d v : String) :
    d ++ "/" ++ stemOf (fontmakeZipName v) ++ "/" ++ "fontmake" ≠
      d ++ "/" ++ fontmakeZipName v := by
  rw [stem_fontmakeZipName]
  unfold fontmakeZipName
  intro h
  have hd := congrArg String.data h
  simp only [String.data_append, List.append_assoc] at hd
  have h1 := List.append_cancel_left hd
  have h2 := List.append_cancel_left h1
  have h3 := List.append_cancel_left h2
  have h4 := List.append_cancel_left h3
  exact absurd h4 (by decide)

/-! ## ArtifactInstaller pipeline lemmas -/

/-- Reduction of `download_and_extract_zip` past a successful fetch, asset
match and download: the run continues with the extraction stage on the
filesystem holding the downloaded archive. -/
theorem dz_reduce_ok (env : InstallEnv) (tag d : String) (fs : List String)
    (url : String) (hst : env.releaseStatus = 200)
    (hurl : findAssetUrl env.assets (fontmakeZipName (normalizeVersion tag)) = some url)
    (hne : url ≠ "") (hdl : env.download (env.redirect url) = .ok) :
    download_and_extract_zip env tag d fs =
      extract_stage env (normalizeVersion tag) d
        ((d ++ "/" ++ fontmakeZipName (normalizeVersion tag)) :: fs) := by
  simp [download_and_extract_zip, hst, hurl, hne, hdl]

/-- Reduction of `download_and_extract_zip` when the transfer raises
`HTTPError`: the caught exception yields the failure return, with the
filesystem exactly as the failed transfer left it. -/
theorem dz_reduce_httpError (env : InstallEnv) (tag d : String) (fs : List String)
    (url : String) (w : Bool) (hst : env.releaseStatus = 200)
    (hurl : findAssetUrl env.assets (fontmakeZipName (normalizeVersion tag)) = some url)
    (hne : url ≠ "") (hdl : env.download (env.redirect url) = .httpError w) :
    download_and_extract_zip env tag d fs =
      (.downloadError,
        if w then (d ++ "/" ++ fontmakeZipName (normalizeVersion tag)) :: fs else fs) := by
  simp [download_and_extract_zip, hst, hurl, hne, hdl]

/-- Reduction of `download_and_extract_zip` when the transfer raises a
non-HTTP transport error: the exception is not caught. -/
theorem dz_reduce_transportError (env : InstallEnv) (tag d : String)
    (fs : List String) (url : String) (w : Bool) (hst : env.releaseStatus = 200)
    (hurl : findAssetUrl env.assets (fontmakeZipName (normalizeVersion tag)) = some url)
    (hne : url ≠ "") (hdl : env.download (env.redirect url) = .transportError w) :
    download_and_extract_zip env tag d fs =
      (.uncaught,
        if w then (d ++ "/" ++ fontmakeZipName (normalizeVersion tag)) :: fs else fs) := by
  simp [download_and_extract_zip, hst, hurl, hne, hdl]

/-- Reduction of `download_and_extract_zip` when no asset name matches. -/
theorem dz_reduce_noAsset (env : InstallEnv) (tag d : String) (fs : List String)
    (hst : env.releaseStatus = 200)
    (hurl : findAssetUrl env.assets (fontmakeZipName (normalizeVersion tag)) = none) :
    download_and_extract_zip env tag d fs = (.assetNotFound, fs) := by
  simp [download_and_extract_zip, hst, hurl]

/-- Reduction of `download_and_extract_zip` when the matching asset's URL is
the empty, falsy string. -/
theorem dz_reduce_emptyUrl (env : InstallEnv) (tag d : String) (fs : List String)
    (hst : env.releaseStatus = 200)
    (hurl : findAssetUrl env.assets (fontmakeZipName (normalizeVersion tag)) = some "") :
    download_and_extract_zip env tag d fs = (.assetNotFound, fs) := by
  simp [download_and_extract_zip, hst, hurl]

/-- The linear scan returns the `browser_download_url` of the first asset
whose `name` equals the expected filename. -/
theorem findAssetUrl_eq_find (assets : List Asset) (fn : String) :
    findAssetUrl assets fn =
      (assets.find? (fun a => a.name == fn)).map Asset.browser_download_url := by
  induction assets with
  | nil => rfl
  | cons a rest ih =>
    by_cases h : a.name == fn
    · simp [findAssetUrl, List.find?, h]
    · simp only [Bool.not_eq_true] at h
      simp [findAssetUrl, List.find?, h, ih]

/-- When no asset name matches, the scan yields nothing. -/
theorem findAssetUrl_none (assets : List Asset) (fn : String)
    (h : ∀ a ∈ assets, a.name ≠ fn) : findAssetUrl assets fn = none := by
  induction assets with
  | nil => rfl
  | cons a rest ih =>
    have ha : ¬ (a.name == fn) = true := by
      simp only [beq_iff_eq]
      exact h a (by simp)
    simp only [Bool.not_eq_true] at ha
    simp [findAssetUrl, ha, ih (fun x hx => h x (by simp [hx]))]


/-- Success of the extraction stage on a well-formed archive (every entry
under `stem/`, with `stem/fontmake` present): the run succeeds, the final
filesystem contains the `.pyz` artifact, everything else in it was already
there before extraction, and neither the archive nor anything under the
extracted directory survives. -/
theorem extract_stage_spec (env : InstallEnv) (v d : String) (fs1 : List String)
    (hwf : ∀ e ∈ env.archive,
      strStartsWith (stemOf (fontmakeZipName v) ++ "/") e = true)
    (hentry : stemOf (fontmakeZipName v) ++ "/" ++ "fontmake" ∈ env.archive) :
    (extract_stage env v d fs1).1 = .ok ∧
    (d ++ "/" ++ pyzName v) ∈ (extract_stage env v d fs1).2 ∧
    (∀ p ∈ (extract_stage env v d fs1).2,
      p = d ++ "/" ++ pyzName v ∨
        (p ∈ fs1 ∧ p ≠ d ++ "/" ++ fontmakeZipName v ∧
          strStartsWith (d ++ "/" ++ stemOf (fontmakeZipName v) ++ "/") p = false)) ∧
    ((d ++ "/" ++ fontmakeZipName v) ∉ (extract_stage env v d fs1).2) ∧
    (∀ p, strStartsWith (d ++ "/" ++ stemOf (fontmakeZipName v) ++ "/") p = true →
      p ∉ (extract_stage env v d fs1).2) := by
  have hfe_mem : (d ++ "/" ++ stemOf (fontmakeZipName v) ++ "/" ++ "fontmake") ∈
      env.archive.map (fun e => d ++ "/" ++ e) ++ fs1 := by
    rw [exe_path_assoc]
    exact List.mem_append_left _ (List.mem_map.mpr
      ⟨stemOf (fontmakeZipName v) ++ "/" ++ "fontmake", hentry, rfl⟩)
  have hdir : is_dir (env.archive.map (fun e => d ++ "/" ++ e) ++ fs1)
      (d ++ "/" ++ stemOf (fontmakeZipName v)) = true := by
    simp only [is_dir, List.any_eq_true]
    exact ⟨_, hfe_mem, strStartsWith_self_append
      ((d ++ "/" ++ stemOf (fontmakeZipName v)) ++ "/") "fontmake"⟩
  have hfile : is_file (env.archive.map (fun e => d ++ "/" ++ e) ++ fs1)
      ((d ++ "/" ++ stemOf (fontmakeZipName v)) ++ "/" ++ "fontmake") = true := by
    simp only [is_file]
    simpa using hfe_mem
  have hpyz_pref : strStartsWith (d ++ "/" ++ stemOf (fontmakeZipName v) ++ "/")
      (d ++ "/" ++ pyzName v) = false := pyz_not_under_extracted d v
  have hpyz_ne : (d ++ "/" ++ pyzName v) ≠ (d ++ "/" ++ fontmakeZipName v) :=
    pyz_ne_zip d v
  simp only [extract_stage, hdir, hfile, if_true]
  refine ⟨by trivial, ?_, ?_, ?_, ?_⟩
  · simp [List.mem_filter, bne_iff_ne, hpyz_pref, hpyz_ne]
  · intro p hp
    simp only [List.mem_filter, List.mem_cons, List.mem_append, List.mem_map,
      bne_iff_ne, Bool.not_eq_true', decide_eq_false_iff_not] at hp
    obtain ⟨⟨hmem, hnpref⟩, hnzip⟩ := hp
    rcases hmem with hpyz | ⟨hin, hnfe⟩
    · exact Or.inl hpyz
    · rcases hin with ⟨e, he, heq⟩ | hmem1
      · exfalso
        have hpref := entry_under_extracted d (stemOf (fontmakeZipName v)) e (hwf e he)
        rw [heq] at hpref
        rw [hpref] at hnpref
        exact absurd hnpref (by decide)
      · exact Or.inr ⟨hmem1, hnzip, hnpref⟩
  · simp only [List.mem_filter, bne_iff_ne]
    intro hp
    exact hp.2 rfl
  · intro p hpref hp
    simp only [List.mem_filter, Bool.not_eq_true', decide_eq_false_iff_not] at hp
    rw [hp.1.2] at hpref
    exact absurd hpref (by decide)

/-- Failure of the extraction stage when the well-formed, nonempty archive
has no `stem/fontmake` entry: the run fails the `is_file` check and returns
with the filesystem exactly as extraction left it — archive and extracted
files still in place. -/
theorem extract_stage_validation (env : InstallEnv) (v d : String)
    (fs1 : List String)
    (hwf : ∀ e ∈ env.archive,
      strStartsWith (stemOf (fontmakeZipName v) ++ "/") e = true)
    (hne : env.archive ≠ [])
    (hmiss : stemOf (fontmakeZipName v) ++ "/" ++ "fontmake" ∉ env.archive)
    (hfs1 : (d ++ "/" ++ stemOf (fontmakeZipName v) ++ "/" ++ "fontmake") ∉ fs1) :
    extract_stage env v d fs1 =
      (.validationError, env.archive.map (fun e => d ++ "/" ++ e) ++ fs1) := by
  obtain ⟨e0, rest, hcons⟩ := List.exists_cons_of_ne_nil hne
  have he0 : e0 ∈ env.archive := by rw [hcons]; exact List.mem_cons_self e0 rest
  have hdir : is_dir (env.archive.map (fun e => d ++ "/" ++ e) ++ fs1)
      (d ++ "/" ++ stemOf (fontmakeZipName v)) = true := by
    simp only [is_dir, List.any_eq_true]
    refine ⟨d ++ "/" ++ e0, List.mem_append_left _ (List.mem_map.mpr ⟨e0, he0, rfl⟩), ?_⟩
    exact entry_under_extracted d (stemOf (fontmakeZipName v)) e0 (hwf e0 he0)
  have hfe_not : (d ++ "/" ++ stemOf (fontmakeZipName v) ++ "/" ++ "fontmake") ∉
      env.archive.map (fun e => d ++ "/" ++ e) ++ fs1 := by
    intro hmem
    rcases List.mem_append.mp hmem with hmap | hin
    · obtain ⟨e, he, heq⟩ := List.mem_map.mp hmap
      rw [exe_path_assoc] at heq
      have := str_append_cancel_left heq
      exact hmiss (this ▸ he)
    · exact hfs1 hin
  have hfile : is_file (env.archive.map (fun e => d ++ "/" ++ e) ++ fs1)
      ((d ++ "/" ++ stemOf (fontmakeZipName v)) ++ "/" ++ "fontmake") = false := by
    simp only [is_file]
    simpa using hfe_not
  simp [extract_stage, hdir, hfile]

/-! ## C1: successful install -/

/-- C1: for every successful run on tag `t` — release fetched, the asset for
the `v`-normalized tag matched with a usable URL, transfer completed, and the
archive well-formed with `{stem}/fontmake` inside — the run returns success,
the install directory gains exactly the one persisted file
`outputDir/fontmake-{v}.pyz` (every other surviving path was already present
before the run), and neither the downloaded archive nor anything under the
extracted top-level directory remains on disk. -/
theorem C1_install_success (env : InstallEnv) (tag d : String) (fs0 : List String)
    (url : String)
    (hst : env.releaseStatus = 200)
    (hurl : findAssetUrl env.assets (fontmakeZipName (normalizeVersion tag)) = some url)
    (hne : url ≠ "")
    (hdl : env.download (env.redirect url) = .ok)
    (hwf : ∀ e ∈ env.archive,
      strStartsWith (stemOf (fontmakeZipName (normalizeVersion tag)) ++ "/") e = true)
    (hentry : stemOf (fontmakeZipName (normalizeVersion tag)) ++ "/" ++ "fontmake" ∈
      env.archive) :
    (download_and_extract_zip env tag d fs0).1 = .ok ∧
    (d ++ "/" ++ pyzName (normalizeVersion tag)) ∈
      (download_and_extract_zip env tag d fs0).2 ∧
    (∀ p ∈ (download_and_extract_zip env tag d fs0).2, p ∉ fs0 →
      p = d ++ "/" ++ pyzName (normalizeVersion tag)) ∧
    (d ++ "/" ++ fontmakeZipName (normalizeVersion tag)) ∉
      (download_and_extract_zip env tag d fs0).2 ∧
    (∀ p, strStartsWith
        (d ++ "/" ++ stemOf (fontmakeZipName (normalizeVersion tag)) ++ "/") p = true →
      p ∉ (download_and_extract_zip env tag d fs0).2) := by
  rw [dz_reduce_ok env tag d fs0 url hst hurl hne hdl]
  obtain ⟨h1, h2, h3, h4, h5⟩ := extract_stage_spec env (normalizeVersion tag) d
    ((d ++ "/" ++ fontmakeZipName (normalizeVersion tag)) :: fs0) hwf hentry
  refine ⟨h1, h2, ?_, h4, h5⟩
  intro p hp hp0
  rcases h3 p hp with hpyz | ⟨hmem, hnzip, _⟩
  · exact hpyz
  · rcases List.mem_cons.mp hmem with hzip | hfs0
    · exact absurd hzip hnzip
    · exact absurd hfs0 hp0

/-- Witness for C1: a concrete successful run on tag `v1.0` produces the
artifact `out/fontmake-1.0.pyz` and leaves neither the archive nor the
extracted directory. -/
theorem C1_install_success_witness :
    (download_and_extract_zip baseEnv "v1.0" "out" []).1 = .ok ∧
    ("out" ++ "/" ++ pyzName "1.0") ∈ (download_and_extract_zip baseEnv "v1.0" "out" []).2 ∧
    ("out" ++ "/" ++ fontmakeZipName "1.0") ∉
      (download_and_extract_zip baseEnv "v1.0" "out" []).2 := by
  have hv : normalizeVersion "v1.0" = "1.0" := by decide
  have h := C1_install_success baseEnv "v1.0" "out" [] "https://dl.example/fm.zip"
    rfl (by decide) (by decide) rfl (by decide) (by decide)
  rw [hv] at h
  exact ⟨h.1, h.2.1, h.2.2.2.1⟩

/-! ## C7: missing inner binary -/

/-- C7: when extraction succeeds (the extracted directory exists) but the
directory holds no file named `fontmake`, the run fails with the
ValidationError outcome, the final `.pyz` artifact is not created, and the
partial on-disk files — the downloaded archive and every extracted file —
are left in place, since cleanup runs only on the success path. -/
theorem C7_validation_failure (env : InstallEnv) (tag d : String)
    (fs0 : List String) (url : String)
    (hst : env.releaseStatus = 200)
    (hurl : findAssetUrl env.assets (fontmakeZipName (normalizeVersion tag)) = some url)
    (hne : url ≠ "")
    (hdl : env.download (env.redirect url) = .ok)
    (hwf : ∀ e ∈ env.archive,
      strStartsWith (stemOf (fontmakeZipName (normalizeVersion tag)) ++ "/") e = true)
    (harch : env.archive ≠ [])
    (hmiss : stemOf (fontmakeZipName (normalizeVersion tag)) ++ "/" ++ "fontmake" ∉
      env.archive)
    (hfs0 : (d ++ "/" ++ stemOf (fontmakeZipName (normalizeVersion tag)) ++ "/" ++
      "fontmake") ∉ fs0)
    (hpyz0 : (d ++ "/" ++ pyzName (normalizeVersion tag)) ∉ fs0) :
    download_and_extract_zip env tag d fs0 =
      (.validationError,
        env.archive.map (fun e => d ++ "/" ++ e) ++
          ((d ++ "/" ++ fontmakeZipName (normalizeVersion tag)) :: fs0)) ∧
    (d ++ "/" ++ fontmakeZipName (normalizeVersion tag)) ∈
      (download_and_extract_zip env tag d fs0).2 ∧
    (∀ e ∈ env.archive, (d ++ "/" ++ e) ∈ (download_and_extract_zip env tag d fs0).2) ∧
    (d ++ "/" ++ pyzName (normalizeVersion tag)) ∉
      (download_and_extract_zip env tag d fs0).2 := by
  have hred : download_and_extract_zip env tag d fs0 =
      (.validationError,
        env.archive.map (fun e => d ++ "/" ++ e) ++
          ((d ++ "/" ++ fontmakeZipName (normalizeVersion tag)) :: fs0)) := by
    rw [dz_reduce_ok env tag d fs0 url hst hurl hne hdl]
    refine extract_stage_validation env (normalizeVersion tag) d _ hwf harch hmiss ?_
    intro hmem
    rcases List.mem_cons.mp hmem with heq | hin
    · exact exe_ne_zip d (normalizeVersion tag) heq
    · exact hfs0 hin
  refine ⟨hred, ?_, ?_, ?_⟩
  · rw [hred]
    exact List.mem_append_right _ (List.mem_cons_self _ _)
  · intro e he
    rw [hred]
    exact List.mem_append_left _ (List.mem_map.mpr ⟨e, he, rfl⟩)
  · rw [hred]
    intro hmem
    rcases List.mem_append.mp hmem with hmap | hin
    · obtain ⟨e, he, heq⟩ := List.mem_map.mp hmap
      have hpref := entry_under_extracted d (stemOf (fontmakeZipName (normalizeVersion tag)))
        e (hwf e he)
      rw [heq, pyz_not_under_extracted d (normalizeVersion tag)] at hpref
      exact absurd hpref (by decide)
    · rcases List.mem_cons.mp hin with heq | hin0
      · exact pyz_ne_zip d (normalizeVersion tag) heq
      · exact hpyz0 hin0

/-- Witness for C7: a concrete run on an archive whose directory holds only
a `README` fails with ValidationError, leaves the archive and the extracted
file on disk, and creates no `.pyz`. -/
theorem C7_validation_failure_witness :
    (download_and_extract_zip noFontmakeEnv "v1.0" "out" []).1 = .validationError ∧
    ("out" ++ "/" ++ fontmakeZipName "1.0") ∈
      (download_and_extract_zip noFontmakeEnv "v1.0" "out" []).2 ∧
    ("out" ++ "/" ++ pyzName "1.0") ∉
      (download_and_extract_zip noFontmakeEnv "v1.0" "out" []).2 := by
  have hv : normalizeVersion "v1.0" = "1.0" := by decide
  have h := C7_validation_failure noFontmakeEnv "v1.0" "out" []
    "https://dl.example/fm.zip" rfl (by decide) (by decide) rfl (by decide)
    (by decide) (by decide) (by decide) (by decide)
  rw [hv] at h
  exact ⟨by rw [h.1], h.2.1, h.2.2.2⟩

/-! ## C8: failed byte transfer -/

/-- C8 (counterexample): a transport error that is not an HTTP error
response — here a failed connection, `transportError` — does not produce the
DownloadError outcome the claim asserts for every transport error: the
`except urllib.error.HTTPError` clause does not catch it and the exception
escapes. -/
theorem C8_counterexample :
    (download_and_extract_zip crashingDownloadEnv "v1.0" "out" []).1 = .uncaught ∧
    InstallResult.uncaught ≠ InstallResult.downloadError := by
  constructor
  · rw [dz_reduce_transportError crashingDownloadEnv "v1.0" "out" []
      "https://dl.example/fm.zip" false rfl (by decide) (by decide) rfl]
  · decide

/-- C8 (amended): when the byte transfer fails with an HTTP error response
the run fails with DownloadError; when it fails with any other transport
error the uncaught exception escapes; in both cases the function performs no
further filesystem operation — no extraction, no rename, and no deletion of
the partial file, which stays exactly where the failed transfer left it —
and the final artifact is not created. -/
theorem C8_download_failure (env : InstallEnv) (tag d : String)
    (fs0 : List String) (url : String)
    (hst : env.releaseStatus = 200)
    (hurl : findAssetUrl env.assets (fontmakeZipName (normalizeVersion tag)) = some url)
    (hne : url ≠ "") :
    (∀ w, env.download (env.redirect url) = .httpError w →
      download_and_extract_zip env tag d fs0 =
        (.downloadError,
          if w then (d ++ "/" ++ fontmakeZipName (normalizeVersion tag)) :: fs0
          else fs0)) ∧
    (∀ w, env.download (env.redirect url) = .transportError w →
      download_and_extract_zip env tag d fs0 =
        (.uncaught,
          if w then (d ++ "/" ++ fontmakeZipName (normalizeVersion tag)) :: fs0
          else fs0)) ∧
    ((d ++ "/" ++ pyzName (normalizeVersion tag)) ∉ fs0 → ∀ w,
      (env.download (env.redirect url) = .httpError w ∨
        env.download (env.redirect url) = .transportError w) →
      (d ++ "/" ++ pyzName (normalizeVersion tag)) ∉
        (download_and_extract_zip env tag d fs0).2) := by
  refine ⟨fun w hdl => dz_reduce_httpError env tag d fs0 url w hst hurl hne hdl,
    fun w hdl => dz_reduce_transportError env tag d fs0 url w hst hurl hne hdl, ?_⟩
  intro hpyz0 w hdl
  have hfs : (download_and_extract_zip env tag d fs0).2 =
      (if w then (d ++ "/" ++ fontmakeZipName (normalizeVersion tag)) :: fs0
        else fs0) := by
    rcases hdl with hdl | hdl
    · rw [dz_reduce_httpError env tag d fs0 url w hst hurl hne hdl]
    · rw [dz_reduce_transportError env tag d fs0 url w hst hurl hne hdl]
  rw [hfs]
  cases w
  · simpa using hpyz0
  · simp only [if_true]
    intro hmem
    rcases List.mem_cons.mp hmem with heq | hin
    · exact pyz_ne_zip d (normalizeVersion tag) heq
    · exact hpyz0 hin

/-- Witness for C8: a concrete run whose transfer raises `HTTPError` after
writing a partial file returns DownloadError with only that partial file
added, and no `.pyz` appears. -/
theorem C8_download_failure_witness :
    download_and_extract_zip failingDownloadEnv "v1.0" "out" [] =
      (.downloadError, [("out" ++ "/" ++ fontmakeZipName "1.0")]) ∧
    ("out" ++ "/" ++ pyzName "1.0") ∉
      (download_and_extract_zip failingDownloadEnv "v1.0" "out" []).2 := by
  have hv : normalizeVersion "v1.0" = "1.0" := by decide
  have h := C8_download_failure failingDownloadEnv "v1.0" "out" []
    "https://dl.example/fm.zip" rfl (by decide) (by decide)
  rw [hv] at h
  exact ⟨h.1 true rfl, h.2.2 (by decide) true (Or.inl rfl)⟩

/-! ## C2: asset resolution -/

/-- C2 (counterexample): an asset whose `name` exactly equals the expected
filename but whose download URL is the empty string is treated as "asset not
found" — the `if not zip_url` falsiness test fires — contradicting the claim
that resolution returns the download URL of the first name-matching asset
and fails only when no name matches. -/
theorem C2_counterexample :
    (∃ a ∈ emptyUrlEnv.assets,
      a.name = fontmakeZipName (normalizeVersion "v1.0")) ∧
    download_and_extract_zip emptyUrlEnv "v1.0" "out" [] =
      (.assetNotFound, []) := by
  constructor
  · exact ⟨⟨fontmakeZipName "1.0", ""⟩, by decide, by decide⟩
  · exact dz_reduce_emptyUrl emptyUrlEnv "v1.0" "out" [] rfl (by decide)

/-- C2 (amended): resolution computes the expected filename
`fontmake-{v}-cp311-cp311-macosx_11_0_universal2.zip` from the v-normalized
tag and scans the asset list linearly, first match winning; when no asset
name equals the expected filename the run fails with AssetNotFoundError
without consulting the download at all, and the same failure is (also)
produced when the matching asset's URL is the empty, falsy string; with a
nonempty matched URL the pipeline proceeds past asset resolution. -/
theorem C2_asset_resolution (env : InstallEnv) (tag d : String)
    (fs : List String) (hst : env.releaseStatus = 200) :
    (findAssetUrl env.assets (fontmakeZipName (normalizeVersion tag)) =
      (env.assets.find? (fun a => a.name == fontmakeZipName (normalizeVersion tag))).map
        Asset.browser_download_url) ∧
    ((∀ a ∈ env.assets, a.name ≠ fontmakeZipName (normalizeVersion tag)) →
      ∀ dl, download_and_extract_zip { env with download := dl } tag d fs =
        (.assetNotFound, fs)) ∧
    (findAssetUrl env.assets (fontmakeZipName (normalizeVersion tag)) = some "" →
      download_and_extract_zip env tag d fs = (.assetNotFound, fs)) ∧
    (∀ url, findAssetUrl env.assets (fontmakeZipName (normalizeVersion tag)) = some url →
      url ≠ "" →
      (download_and_extract_zip env tag d fs).1 ≠ .assetNotFound ∧
      (download_and_extract_zip env tag d fs).1 ≠ .fetchFailed) := by
  refine ⟨findAssetUrl_eq_find _ _, ?_, ?_, ?_⟩
  · intro hnomatch dl
    exact dz_reduce_noAsset { env with download := dl } tag d fs hst
      (findAssetUrl_none _ _ hnomatch)
  · intro h0
    exact dz_reduce_emptyUrl env tag d fs hst h0
  · intro url hurl hne
    cases hdl : env.download (env.redirect url) with
    | ok =>
      rw [dz_reduce_ok env tag d fs url hst hurl hne hdl]
      constructor <;>
        · unfold extract_stage
          dsimp only
          split
          · split <;> simp
          · simp
    | httpError w =>
      rw [dz_reduce_httpError env tag d fs url w hst hurl hne hdl]
      exact ⟨by simp, by simp⟩
    | transportError w =>
      rw [dz_reduce_transportError env tag d fs url w hst hurl hne hdl]
      exact ⟨by simp, by simp⟩

/-- Witness for C2: with no matching asset name the concrete run fails with
AssetNotFoundError whatever the download behaviour; on the healthy asset
list the scan yields the first match's URL. -/
theorem C2_asset_resolution_witness :
    download_and_extract_zip { noMatchEnv with download := fun _ => DownloadOutcome.ok }
      "v1.0" "out" [] = (.assetNotFound, ([] : List String)) ∧
    findAssetUrl baseEnv.assets (fontmakeZipName (normalizeVersion "v1.0")) =
      (baseEnv.assets.find?
        (fun a => a.name == fontmakeZipName (normalizeVersion "v1.0"))).map
        Asset.browser_download_url :=
  ⟨(C2_asset_resolution noMatchEnv "v1.0" "out" [] rfl).2.1 (by decide) _,
   (C2_asset_resolution baseEnv "v1.0" "out" [] rfl).1⟩

/-! ## C6: the supervisor's capture loop -/

/-- C6: evaluation of the supervisor at the failing schedule.  A child that
emits one line and exits 0 is fully captured when the first `poll()` still
sees it running, but when the child has already exited at the first `poll()`
the loop body never runs and the captured text is empty — the buffered line
is silently dropped, contradicting the spec's full-capture contract (the
spec itself flags this polling loop as needing a correctness fix).  With
capture disabled the result carries no text in either schedule. -/
theorem C6_poll_race_drops_output :
    run_subprocess_model ⟨["hello\n"], 0⟩ true false true =
      .ok ⟨0, some "", some ""⟩ ∧
    run_subprocess_model ⟨["hello\n"], 0⟩ false false true =
      .ok ⟨0, some "hello\n", some ""⟩ ∧
    run_subprocess_model ⟨["hello\n"], 0⟩ true false false = .ok ⟨0, none, none⟩ ∧
    (some "" : Option String) ≠ some "hello\n" := by
  refine ⟨by decide, ?_, by decide, by decide⟩
  show RunResult.ok ⟨0, some (String.join ["hello\n"]), some ""⟩ = _
  rw [String.join]
  decide

/-! ## C9: the Saving-line extraction -/

/-- A newline-free character list is a single line. -/
theorem splitLinesChars_no_newline (l : List Char) (h : ('\n') ∉ l) :
    splitLinesChars l = [l] := by
  induction l with
  | nil => rfl
  | cons c cs ih =>
    have hc : ¬ c = '\n' := fun hc => h (by simp [hc])
    have ht := ih (fun hm => h (by simp [hm]))
    simp [splitLinesChars, ht, hc]

/-- Splitting peels off a leading newline-free line. -/
theorem splitLinesChars_append (a rest : List Char) (h : ('\n') ∉ a) :
    splitLinesChars (a ++ '\n' :: rest) = a :: splitLinesChars rest := by
  induction a with
  | nil => simp [splitLinesChars]
  | cons c cs ih =>
    have hc : ¬ c = '\n' := fun hc => h (by simp [hc])
    have ht := ih (fun hm => h (by simp [hm]))
    simp [splitLinesChars, ht, hc]

/-- Over a text assembled from newline-free lines, the extraction returns
exactly the per-line matches, in order. -/
theorem extractReportedPaths_joinLines (ls : List String)
    (h : ∀ l ∈ ls, ('\n') ∉ l.data) :
    extractReportedPaths (joinLines ls) =
      ls.filterMap (fun l => matchSavingLine l.data) := by
  induction ls with
  | nil => decide
  | cons l ls' ih =>
    cases ls' with
    | nil =>
      show (splitLinesChars (joinLines [l]).data).filterMap matchSavingLine = _
      have hj : joinLines [l] = l := rfl
      rw [hj, splitLinesChars_no_newline l.data (h l (by simp))]
      simp [List.filterMap]
    | cons l2 ls'' =>
      have hd : (l ++ "\n" ++ joinLines (l2 :: ls'')).data =
          l.data ++ '\n' :: (joinLines (l2 :: ls'')).data := by
        simp [String.data_append]
      have ihx := ih (fun x hx => h x (by simp [hx]))
      show (splitLinesChars (joinLines (l :: l2 :: ls'')).data).filterMap
          matchSavingLine = _
      have hj : joinLines (l :: l2 :: ls'') = l ++ "\n" ++ joinLines (l2 :: ls'') := rfl
      rw [hj, hd, splitLinesChars_append _ _ (h l (by simp))]
      simp only [List.filterMap_cons]
      unfold extractReportedPaths at ihx
      cases hm : matchSavingLine l.data <;> simp [hm, ihx] <;>
        rw [List.filterMap_cons]

/-- C9: the extraction returns the path of every `Saving` line in order of
appearance; in particular, for a captured text with exactly two matching
lines it returns both paths in order, and the reveal step — which takes the
last element — picks the second. -/
theorem C9_output_locator (ls : List String) (p1 p2 : String)
    (hnl : ∀ l ∈ ls, ('\n') ∉ l.data)
    (hm : ls.filterMap (fun l => matchSavingLine l.data) = [p1, p2]) :
    extractReportedPaths (joinLines ls) =
      ls.filterMap (fun l => matchSavingLine l.data) ∧
    extractReportedPaths (joinLines ls) = [p1, p2] ∧
    reveal_target (joinLines ls) = some p2 := by
  have h1 := extractReportedPaths_joinLines ls hnl
  refine ⟨h1, h1.trans hm, ?_⟩
  rw [reveal_target, h1.trans hm]
  rfl

/-- Witness for C9 on a concrete three-line log with two `Saving` lines. -/
theorem C9_output_locator_witness :
    extractReportedPaths (joinLines ["fontmake: compiling sources",
      "INFO:fontmake.font_project:Saving out/Font-VF.ttf",
      "INFO:fontmake.font_project:Saving out/Font.ttf"]) =
      ["out/Font-VF.ttf", "out/Font.ttf"] ∧
    reveal_target (joinLines ["fontmake: compiling sources",
      "INFO:fontmake.font_project:Saving out/Font-VF.ttf",
      "INFO:fontmake.font_project:Saving out/Font.ttf"]) = some "out/Font.ttf" := by
  have h := C9_output_locator ["fontmake: compiling sources",
      "INFO:fontmake.font_project:Saving out/Font-VF.ttf",
      "INFO:fontmake.font_project:Saving out/Font.ttf"]
    "out/Font-VF.ttf" "out/Font.ttf" (by decide) (by decide)
  exact ⟨h.2.1, h.2.2⟩
